import Mathlib

/-!
Shallow embedding of the engagement-state engine of the service_bot
repository: rating upserts and aggregate recomputation
(`app/database/repositories.py`), the browsing cursor and rate-limit
logic backed by the session cache (`app/services/redis_service.py`,
`app/handlers/user/browse.py`, `app/handlers/user/contact.py`), and the
query shapes used for provider rankings.  Database tables are lists of
records; timestamps are naturals (epoch seconds); the SQL `numeric`
average is modelled exactly with `Rat`.
-/

namespace ServiceBot

/-- A row of the `ratings` table (`app/database/models.py`, class `Rating`).
`is_moderated` defaults to `true`; the check constraint
`check_rating_range` restricts `rating` to `[1,5]` and the unique index
`idx_rating_user_provider` makes `(user_id, provider_id)` unique. -/
structure Rating where
  id : Nat
  user_id : Nat
  provider_id : Nat
  rating : Int
  comment : Option String
  is_moderated : Bool
  created_at : Nat
  updated_at : Nat
deriving Repr, DecidableEq

/-- A row of the `providers` table, with the fields the engine reads or
writes (`app/database/models.py`, class `Provider`). -/
structure Provider where
  id : Nat
  location_id : Nat
  category_id : Nat
  is_active : Bool
  is_approved : Bool
  average_rating : Rat
  rating_count : Nat
  view_count : Nat
  contact_count : Nat
deriving Repr, DecidableEq

/-- A row of the `user_provider_contacts` table (`UserProviderContact`):
append-only ledger of contact events. -/
structure Contact where
  id : Nat
  user_id : Nat
  provider_id : Nat
  contacted_at : Nat
deriving Repr, DecidableEq

/-- The relational state the engine touches: the three tables above. -/
structure DB where
  providers : List Provider
  ratings : List Rating
  contacts : List Contact
deriving Repr, DecidableEq

/-- The row predicate of the unique index `idx_rating_user_provider`:
does rating row `r` belong to the pair `(uid, pid)`. -/
def ratingPair (uid pid : Nat) (r : Rating) : Bool :=
  r.user_id == uid && r.provider_id == pid

/-- `RatingRepository.get_user_rating` (`repositories.py` line 405):
`SELECT ... WHERE user_id = uid AND provider_id = pid`, one row or none. -/
def get_user_rating (db : DB) (uid pid : Nat) : Option Rating :=
  db.ratings.find? (ratingPair uid pid)

/-- All rating rows stored for the pair `(uid, pid)`. -/
def pairRecords (db : DB) (uid pid : Nat) : List Rating :=
  db.ratings.filter (ratingPair uid pid)

/-- Fresh primary key for an inserted rating row. -/
def nextRatingId (db : DB) : Nat :=
  (db.ratings.map (fun r => r.id)).foldr Nat.max 0 + 1

/-- The check constraint `check_rating_range` of the `ratings` table:
`rating >= 1 AND rating <= 5`. -/
def ratingInRange (v : Int) : Bool :=
  decide (1 ≤ v) && decide (v ≤ 5)

/-- `RatingRepository.create_or_update` (`repositories.py` lines 412-430).
If a row for `(uid, pid)` exists, its `rating`, `comment` and
`updated_at` are overwritten in place and the commit updates that row;
otherwise a new row is inserted with `is_moderated = true` and
`created_at = updated_at = now`.  The commit enforces the table's
`check_rating_range` constraint: a value outside `[1,5]` aborts the
transaction, leaving the database unchanged, which the model expresses
by returning `Except.error` without a successor state. -/
def create_or_update (db : DB) (uid pid : Nat) (value : Int)
    (comment : Option String) (now : Nat) : Except String (DB × Rating) :=
  if ratingInRange value then
    match get_user_rating db uid pid with
    | some r =>
        let updated : Rating :=
          { r with rating := value, comment := comment, updated_at := now }
        Except.ok
          ({ db with
              ratings := db.ratings.map
                (fun s => if s.id == r.id then updated else s) },
            updated)
    | none =>
        let inserted : Rating :=
          { id := nextRatingId db, user_id := uid, provider_id := pid,
            rating := value, comment := comment, is_moderated := true,
            created_at := now, updated_at := now }
        Except.ok ({ db with ratings := db.ratings ++ [inserted] }, inserted)
  else
    Except.error "check_rating_range"

/-- The moderated rating rows of provider `pid`
(`WHERE provider_id = pid AND is_moderated = TRUE`). -/
def moderatedRatings (db : DB) (pid : Nat) : List Rating :=
  db.ratings.filter (fun r => r.provider_id == pid && r.is_moderated)

/-- SQL `AVG(rating)` over a set of rows followed by the handler's
`float(avg or 0)`: the exact mean for a non-empty set, `0` for the
empty set (where SQL AVG is NULL). -/
def ratAverage (rs : List Rating) : Rat :=
  if rs.length = 0 then 0
  else ((rs.map (fun r => (r.rating : Rat))).sum) / (rs.length : Rat)

/-- `ProviderRepository.update_rating` (`repositories.py` lines 372-385):
recomputes `AVG(rating)` and `COUNT(id)` over the moderated ratings of
`pid` and writes `average_rating = float(avg or 0)`,
`rating_count = count or 0` onto the provider row. -/
def update_rating (db : DB) (pid : Nat) : DB :=
  { db with
      providers := db.providers.map
        (fun p =>
          if p.id == pid then
            { p with average_rating := ratAverage (moderatedRatings db pid),
                     rating_count := (moderatedRatings db pid).length }
          else p) }

/-- `save_rating` (`app/handlers/user/rating.py` lines 108-124), database
effects only: upsert the rating via `create_or_update`, then immediately
recompute the provider aggregate via `update_rating`. -/
def save_rating (db : DB) (uid pid : Nat) (value : Int)
    (comment : Option String) (now : Nat) : Except String DB :=
  (create_or_update db uid pid value comment now).map
    (fun r => update_rating r.1 pid)

/-- `RatingRepository.count_user_ratings_today` (`repositories.py` lines
443-449): count of the user's rating rows with
`created_at >= today_start`, where `today_start` is the current UTC
midnight. -/
def count_user_ratings_today (db : DB) (uid todayStart : Nat) : Nat :=
  (db.ratings.filter
    (fun r => r.user_id == uid && decide (todayStart ≤ r.created_at))).length

/-- The row ordering actually issued by `ProviderRepository.get_filtered`
(`repositories.py` line 276): `ORDER BY average_rating DESC,
contact_count DESC` — and nothing further. -/
def codeOrder (a b : Provider) : Prop :=
  b.average_rating < a.average_rating ∨
    (a.average_rating = b.average_rating ∧ b.contact_count ≤ a.contact_count)

instance : DecidableRel codeOrder := fun a b => by
  unfold codeOrder; infer_instance

/-- The ordering the specification prescribes for browse snapshots:
average rating descending, then contact count descending, then provider
identifier ascending as a final tie-break. -/
def specOrder (a b : Provider) : Prop :=
  b.average_rating < a.average_rating ∨
    (a.average_rating = b.average_rating ∧
      (b.contact_count < a.contact_count ∨
        (a.contact_count = b.contact_count ∧ a.id ≤ b.id)))

instance : DecidableRel specOrder := fun a b => by
  unfold specOrder; infer_instance

instance : IsTotal Provider codeOrder where
  total a b := by
    unfold codeOrder
    rcases lt_trichotomy a.average_rating b.average_rating with h | h | h
    · exact Or.inr (Or.inl h)
    · rcases Nat.le_total b.contact_count a.contact_count with hc | hc
      · exact Or.inl (Or.inr ⟨h, hc⟩)
      · exact Or.inr (Or.inr ⟨h.symm, hc⟩)
    · exact Or.inl (Or.inl h)

instance : IsTrans Provider codeOrder where
  trans a b c hab hbc := by
    unfold codeOrder at *
    rcases hab with h1 | ⟨h1, h1c⟩
    · rcases hbc with h2 | ⟨h2, _⟩
      · exact Or.inl (h2.trans h1)
      · exact Or.inl (h2 ▸ h1)
    · rcases hbc with h2 | ⟨h2, h2c⟩
      · exact Or.inl (h1 ▸ h2)
      · exact Or.inr ⟨h1.trans h2, h2c.trans h1c⟩

/-- The filter conditions of `ProviderRepository.get_filtered`
(`repositories.py` lines 253-274) on the call path used by
`callback_category_select`: `is_active`, `is_approved` (the handler
passes `approved_only=True`), and the optional location/category
equality filters; the remaining optional filters (`min_rating`,
`price_min`, `price_max`, `available_only`) are left at their `None`
/`False` defaults on this path and contribute no condition. -/
def providerMatches (loc cat : Option Nat) (p : Provider) : Bool :=
  p.is_active && p.is_approved &&
    (match loc with | none => true | some l => p.location_id == l) &&
    (match cat with | none => true | some c => p.category_id == c)

/-- `ProviderRepository.get_filtered` (`repositories.py` lines 236-288),
rows only: filter by the conditions, then `ORDER BY average_rating DESC,
contact_count DESC`.  SQL leaves the relative order of rows tied on both
sort keys unspecified; the model refines that by a stable sort of the
stored row order, which is one legal execution. -/
def get_filtered (db : DB) (loc cat : Option Nat) : List Provider :=
  List.insertionSort codeOrder (db.providers.filter (providerMatches loc cat))

/-- The provider-id snapshot built by `callback_category_select`
(`app/handlers/user/browse.py` line 108): `[p.id for p in providers]`. -/
def snapshotIds (db : DB) (loc cat : Option Nat) : List Nat :=
  (get_filtered db loc cat).map (fun p => p.id)

/-- Number of contact-ledger rows for provider `pid`
(`COUNT(user_provider_contacts.id)` grouped by provider). -/
def ledgerCount (db : DB) (pid : Nat) : Nat :=
  (db.contacts.filter (fun c => c.provider_id == pid)).length

/-- The ordering issued by `ContactRepository.get_most_contacted_providers`
(`repositories.py` line 532): `ORDER BY contact_count DESC` on the
grouped ledger count — and nothing further. -/
def contactedOrder (a b : Provider × Nat) : Prop :=
  b.2 ≤ a.2

instance : DecidableRel contactedOrder := fun a b => by
  unfold contactedOrder; infer_instance

instance : IsTotal (Provider × Nat) contactedOrder where
  total a b := Nat.le_total b.2 a.2

instance : IsTrans (Provider × Nat) contactedOrder where
  trans _ _ _ hab hbc := hbc.trans hab

/-- `ContactRepository.get_most_contacted_providers` (`repositories.py`
lines 526-535): inner-join providers to the contact ledger, group by
provider, count the ledger rows, order by that count descending, take
`limit`.  The inner join keeps exactly the providers with at least one
ledger row; the count comes from the ledger, not from the provider's
stored `contact_count` field.  Ties are unspecified in SQL; the model
refines them by a stable sort of the stored row order. -/
def get_most_contacted_providers (db : DB) (limit : Nat) :
    List (Provider × Nat) :=
  (List.insertionSort contactedOrder
    ((db.providers.filter (fun p => 0 < ledgerCount db p.id)).map
      (fun p => (p, ledgerCount db p.id)))).take limit

/-- Default `Settings.CONTACT_LIMIT_PER_HOUR` (`app/config.py` line 32). -/
def CONTACT_LIMIT_PER_HOUR : Nat := 10

/-- Default `Settings.SESSION_TTL` (`app/config.py` line 29). -/
def SESSION_TTL : Nat := 3600

/-- Default `Settings.RATING_LIMIT_PER_DAY` (`app/config.py` line 33). -/
def RATING_LIMIT_PER_DAY : Nat := 20

/-- Outcome of one redis client call: either a value, or a raised
exception (connection refused, timeout, protocol error). -/
inductive RedisResult (α : Type) where
  | ok : α → RedisResult α
  | error : RedisResult α
deriving Repr, DecidableEq

/-- The observable behaviour of the redis connection for one rate-limit
key: the stored counter value (`none` when the key is absent) and
whether the GET call raises. -/
structure RedisConn where
  counter : Option Nat
  readFails : Bool
deriving Repr, DecidableEq

/-- One `redis.get` call on the rate-limit key. -/
def redisGetCounter (c : RedisConn) : RedisResult (Option Nat) :=
  if c.readFails then RedisResult.error else RedisResult.ok c.counter

/-- `RedisService.get_rate_limit` (`app/services/redis_service.py` lines
141-152): returns `0` when the client object is absent (`if not
self.redis: return 0`), `0` when the GET raises (the `except` branch
logs and returns `0`), `0` when the key is absent, and the stored count
otherwise. -/
def get_rate_limit (conn : Option RedisConn) : Nat :=
  match conn with
  | none => 0
  | some c =>
      match redisGetCounter c with
      | RedisResult.error => 0
      | RedisResult.ok none => 0
      | RedisResult.ok (some n) => n

/-- The gate of `callback_contact_provider`
(`app/handlers/user/contact.py` lines 26-32): the contact proceeds
exactly when `get_rate_limit` returns a count below
`CONTACT_LIMIT_PER_HOUR`. -/
def callback_contact_allowed (conn : Option RedisConn) : Bool :=
  decide (get_rate_limit conn < CONTACT_LIMIT_PER_HOUR)

/-- A live redis rate-limit key for one `(user, action)` pair: its
counter value and absolute expiry time. -/
structure RateEntry where
  count : Nat
  expires_at : Nat
deriving Repr, DecidableEq

/-- Redis key expiry: at time `now` the key is visible only while
`now < expires_at`; afterwards reads and INCR behave as if it were
deleted. -/
def liveEntry (st : Option RateEntry) (now : Nat) : Option RateEntry :=
  match st with
  | some e => if now < e.expires_at then some e else none
  | none => none

/-- `RedisService.increment_rate_limit` (`redis_service.py` lines
126-139) at time `now`: `INCR` creates an absent key at `1` (and the
`count == 1` branch then sets `EXPIRE ttl`), otherwise increments the
existing counter leaving its expiry untouched.  Returns the new entry
and the count INCR reported. -/
def increment_rate_limit (st : Option RateEntry) (now ttl : Nat) :
    RateEntry × Nat :=
  match liveEntry st now with
  | none => ({ count := 1, expires_at := now + ttl }, 1)
  | some e => ({ e with count := e.count + 1 }, e.count + 1)

/-- `RedisService.get_rate_limit` at time `now` on a reachable
connection: `0` when the key is absent or expired, the counter
otherwise. -/
def read_rate_limit (st : Option RateEntry) (now : Nat) : Nat :=
  match liveEntry st now with
  | none => 0
  | some e => e.count

/-- Outcome of a contact attempt as the handler renders it. -/
inductive ContactOutcome where
  | allowed : ContactOutcome
  | limitExceeded : Nat → ContactOutcome
deriving Repr, DecidableEq

/-- One pass of `callback_contact_provider`
(`app/handlers/user/contact.py`) over the rate-limit key at time `now`:
read the counter; if it has reached `limit`, answer with the
limit-exceeded alert carrying the configured limit and change nothing;
otherwise proceed and `increment_rate_limit` with the handler's
hard-coded `ttl = 3600`. -/
def contact_attempt (st : Option RateEntry) (now limit ttl : Nat) :
    Option RateEntry × ContactOutcome :=
  if limit ≤ read_rate_limit st now then
    (st, ContactOutcome.limitExceeded limit)
  else
    (some (increment_rate_limit st now ttl).1, ContactOutcome.allowed)

/-- Fold a sequence of contact attempts at the given times over the
rate-limit key. -/
def runContacts (st : Option RateEntry) (limit ttl : Nat)
    (times : List Nat) : Option RateEntry :=
  times.foldl (fun s t => (contact_attempt s t limit ttl).1) st

/-- `BrowsingState` as stored by `RedisService.set_browsing_state`
(`redis_service.py` lines 96-113); the unused `filters` dict is elided. -/
structure BrowsingState where
  location_id : Nat
  category_id : Nat
  provider_ids : List Nat
  current_index : Int
deriving Repr, DecidableEq

/-- The cached `session:{user}:browsing_state` key: the stored state and
its absolute expiry time. -/
structure SessEntry where
  value : BrowsingState
  expires_at : Nat
deriving Repr, DecidableEq

/-- Redis expiry for the session key at time `now`. -/
def liveSession (c : Option SessEntry) (now : Nat) : Option SessEntry :=
  match c with
  | some e => if now < e.expires_at then some e else none
  | none => none

/-- `RedisService.get_session` / `get_browsing_state` (`redis_service.py`
lines 52-69, 115-117) at time `now`: a plain redis GET.  It returns the
stored value when the key is live, and leaves the key — including its
remaining TTL — exactly as it was: GET does not touch expiry. -/
def get_browsing_state (c : Option SessEntry) (now : Nat) :
    Option BrowsingState × Option SessEntry :=
  ((liveSession c now).map (fun e => e.value), c)

/-- `RedisService.set_session` on the browsing-state key
(`redis_service.py` lines 38-50): SET with `ex = SESSION_TTL`, replacing
the key and giving it the full configured TTL from `now`. -/
def set_browsing_session (s : BrowsingState) (now : Nat) : Option SessEntry :=
  some { value := s, expires_at := now + SESSION_TTL }

/-- `RedisService.update_browsing_index` (`redis_service.py` lines
119-124) at time `now`: read the state; if present, overwrite
`current_index` and SET the state back, which resets the TTL to the full
`SESSION_TTL`; if absent, do nothing. -/
def update_browsing_index (c : Option SessEntry) (now : Nat) (index : Int) :
    Option SessEntry :=
  match (get_browsing_state c now).1 with
  | none => c
  | some s => set_browsing_session { s with current_index := index } now

/-- `set_browsing_state` as called by `callback_category_select`
(`browse.py` lines 108-115): a fresh state at `current_index = 0`. -/
def start_browse (loc cat : Nat) (pids : List Nat) : BrowsingState :=
  { location_id := loc, category_id := cat, provider_ids := pids,
    current_index := 0 }

/-- The state mutation performed by `show_provider` (`browse.py` lines
122-134): re-read the state; bail out when it is gone; bail out —
leaving the stored index untouched — when the requested index is out of
bounds (`index < 0 or index >= len(provider_ids)`); otherwise store the
new index via `update_browsing_index`. -/
def show_provider_update (os : Option BrowsingState) (index : Int) :
    Option BrowsingState :=
  match os with
  | none => none
  | some s =>
      if index < 0 ∨ (s.provider_ids.length : Int) ≤ index then some s
      else some { s with current_index := index }

/-- `callback_browse_next` (`browse.py` lines 215-229): read the state;
if `current_index < total - 1`, show the provider at
`current_index + 1` (which stores the new index); otherwise answer
without moving. -/
def browse_next (os : Option BrowsingState) : Option BrowsingState :=
  match os with
  | none => none
  | some s =>
      if s.current_index < (s.provider_ids.length : Int) - 1 then
        show_provider_update (some s) (s.current_index + 1)
      else some s

/-- `callback_browse_prev` (`browse.py` lines 232-245): read the state;
if `current_index > 0`, show the provider at `current_index - 1`;
otherwise answer without moving. -/
def browse_prev (os : Option BrowsingState) : Option BrowsingState :=
  match os with
  | none => none
  | some s =>
      if 0 < s.current_index then
        show_provider_update (some s) (s.current_index - 1)
      else some s

/-- A user navigation action on the browse keyboard. -/
inductive NavAction where
  | next : NavAction
  | prev : NavAction
deriving Repr, DecidableEq

/-- Dispatch of one navigation callback. -/
def navStep (os : Option BrowsingState) : NavAction → Option BrowsingState
  | NavAction.next => browse_next os
  | NavAction.prev => browse_prev os

/-- A whole sequence of navigation callbacks. -/
def navRun (os : Option BrowsingState) (acts : List NavAction) :
    Option BrowsingState :=
  acts.foldl navStep os

/-- The BrowsingState invariant: the snapshot is unchanged and the
stored index is within `[0, len-1]`. -/
def navInv (pids : List Nat) (s : BrowsingState) : Prop :=
  s.provider_ids = pids ∧ 0 ≤ s.current_index ∧
    s.current_index < (pids.length : Int)

lemma navStep_preserves {pids : List Nat} {s : BrowsingState}
    (a : NavAction) (h : navInv pids s) :
    ∃ t, navStep (some s) a = some t ∧ navInv pids t := by
  obtain ⟨hp, h0, hlt⟩ := h
  have hlen : s.provider_ids.length = pids.length := by rw [hp]
  cases a with
  | next =>
      by_cases hlt1 : s.current_index < (s.provider_ids.length : Int) - 1
      · refine ⟨{ s with current_index := s.current_index + 1 }, ?_, hp, ?_, ?_⟩
        · simp only [navStep, browse_next, if_pos hlt1, show_provider_update]
          rw [if_neg]
          push_neg
          omega
        · dsimp only
          omega
        · dsimp only
          omega
      · exact ⟨s, by simp [navStep, browse_next, if_neg hlt1], hp, h0, hlt⟩
  | prev =>
      by_cases hpos : 0 < s.current_index
      · refine ⟨{ s with current_index := s.current_index - 1 }, ?_, hp, ?_, ?_⟩
        · simp only [navStep, browse_prev, if_pos hpos, show_provider_update]
          rw [if_neg]
          push_neg
          omega
        · dsimp only
          omega
        · dsimp only
          omega
      · exact ⟨s, by simp [navStep, browse_prev, if_neg hpos], hp, h0, hlt⟩

lemma navRun_preserves {pids : List Nat} (acts : List NavAction) :
    ∀ s : BrowsingState, navInv pids s →
      ∃ t, navRun (some s) acts = some t ∧ navInv pids t := by
  induction acts with
  | nil => exact fun s h => ⟨s, rfl, h⟩
  | cons a rest ih =>
      intro s h
      obtain ⟨t, ht, hinv⟩ := navStep_preserves a h
      obtain ⟨u, hu, huinv⟩ := ih t hinv
      exact ⟨u, by simpa [navRun, ht] using hu, huinv⟩

/-- C2: starting a browse with a non-empty `n`-element snapshot and
running any sequence of next/previous callbacks leaves the state
present, with the snapshot unchanged and the stored `current_index`
always in `[0, n-1]`; at the upper boundary a further `next` is a
no-op, and at the lower boundary a further `prev` is a no-op. -/
theorem browse_nav_clamped (loc cat : Nat) (pids : List Nat)
    (acts : List NavAction) (hne : pids ≠ []) :
    ∃ t, navRun (some (start_browse loc cat pids)) acts = some t ∧
      t.provider_ids = pids ∧
      0 ≤ t.current_index ∧ t.current_index < (pids.length : Int) ∧
      (t.current_index = (pids.length : Int) - 1 →
        navStep (some t) NavAction.next = some t) ∧
      (t.current_index = 0 → navStep (some t) NavAction.prev = some t) := by
  have hlen : 0 < pids.length := List.length_pos.mpr hne
  have hinv : navInv pids (start_browse loc cat pids) := by
    refine ⟨rfl, le_refl 0, ?_⟩
    dsimp [start_browse]
    exact_mod_cast hlen
  obtain ⟨t, ht, hp, h0, hlt⟩ := navRun_preserves acts _ hinv
  have hlen2 : t.provider_ids.length = pids.length := by rw [hp]
  refine ⟨t, ht, hp, h0, hlt, ?_, ?_⟩
  · intro htop
    have hng : ¬ t.current_index < (t.provider_ids.length : Int) - 1 := by
      omega
    simp [navStep, browse_next, if_neg hng]
  · intro hbot
    have hng : ¬ (0 : Int) < t.current_index := by omega
    simp [navStep, browse_prev, if_neg hng]

/-- Witness for C2 at a concrete input: snapshot `[10, 11, 12]` and the
action sequence next, next, next, prev. -/
theorem browse_nav_clamped_witness :
    ∃ t, navRun (some (start_browse 1 2 [10, 11, 12]))
        [NavAction.next, NavAction.next, NavAction.next, NavAction.prev] =
          some t ∧
      t.provider_ids = [10, 11, 12] ∧
      0 ≤ t.current_index ∧ t.current_index < (([10, 11, 12] : List Nat).length : Int) ∧
      (t.current_index = (([10, 11, 12] : List Nat).length : Int) - 1 →
        navStep (some t) NavAction.next = some t) ∧
      (t.current_index = 0 → navStep (some t) NavAction.prev = some t) :=
  browse_nav_clamped 1 2 [10, 11, 12]
    [NavAction.next, NavAction.next, NavAction.next, NavAction.prev]
    (by decide)

/-- C3: the contact rate-limit check fails OPEN, not closed.  Evaluated
at the failing input — a redis connection whose GET raises while the
stored counter already equals the configured limit — `get_rate_limit`
returns `0`, so `callback_contact_provider` proceeds with the contact;
the same happens when the client object is absent entirely.  The spec
requires the privileged action to be denied when the counter cannot be
read. -/
theorem contact_rate_limit_fails_open :
    get_rate_limit
        (some { counter := some CONTACT_LIMIT_PER_HOUR, readFails := true }) = 0 ∧
    callback_contact_allowed
        (some { counter := some CONTACT_LIMIT_PER_HOUR, readFails := true }) = true ∧
    callback_contact_allowed none = true := by
  decide

/-- C7 counterexample: a successful read of the browsing state does not
extend its TTL.  With `SESSION_TTL = 3600`, a state written earlier and
now 50 seconds from expiry is read successfully at time 50, the cache —
including the key's expiry — is left exactly as it was, and the
remaining lifetime after the read is `100 - 50 = 50`, not the configured
TTL. -/
theorem session_read_keeps_ttl_cex :
    (get_browsing_state
        (some { value := start_browse 1 2 [10, 11, 12], expires_at := 100 })
        50).1 = some (start_browse 1 2 [10, 11, 12]) ∧
    (get_browsing_state
        (some { value := start_browse 1 2 [10, 11, 12], expires_at := 100 })
        50).2 = some { value := start_browse 1 2 [10, 11, 12], expires_at := 100 } ∧
    100 - 50 ≠ SESSION_TTL := by
  decide

/-- C7 (amended): a plain read (`get_session`/`get_browsing_state`)
returns the live value and leaves the cache — hence the key's remaining
TTL — untouched, while a navigation step that stores a new index via
`update_browsing_index` re-SETs the state and thereby resets the TTL to
the full configured `SESSION_TTL` from the time of the write. -/
theorem session_ttl_reset_on_write (c : Option SessEntry) (now : Nat)
    (idx : Int) (s : BrowsingState)
    (h : (get_browsing_state c now).1 = some s) :
    (get_browsing_state c now).2 = c ∧
    update_browsing_index c now idx =
      some { value := { s with current_index := idx },
             expires_at := now + SESSION_TTL } := by
  refine ⟨rfl, ?_⟩
  unfold update_browsing_index
  rw [h]
  rfl

/-- Witness for the amended C7 at a concrete input: a live state read at
time 50 and an index update to 2. -/
theorem session_ttl_reset_on_write_witness :
    (get_browsing_state
        (some { value := start_browse 1 2 [10, 11, 12], expires_at := 100 })
        50).2 = some { value := start_browse 1 2 [10, 11, 12], expires_at := 100 } ∧
    update_browsing_index
        (some { value := start_browse 1 2 [10, 11, 12], expires_at := 100 })
        50 2 =
      some { value := { start_browse 1 2 [10, 11, 12] with current_index := 2 },
             expires_at := 50 + SESSION_TTL } :=
  session_ttl_reset_on_write
    (some { value := start_browse 1 2 [10, 11, 12], expires_at := 100 })
    50 2 (start_browse 1 2 [10, 11, 12]) (by decide)

lemma runContacts_fill (limit ttl : Nat) :
    ∀ (ts : List Nat) (e : RateEntry),
      (∀ t ∈ ts, t < e.expires_at) → e.count + ts.length ≤ limit →
      runContacts (some e) limit ttl ts =
        some { e with count := e.count + ts.length } := by
  intro ts
  induction ts with
  | nil =>
      intro e _ _
      simp [runContacts]
  | cons t rest ih =>
      intro e hmem hcnt
      have hlive : liveEntry (some e) t = some e := by
        simp [liveEntry, if_pos (hmem t (List.mem_cons_self t rest))]
      have hread : read_rate_limit (some e) t = e.count := by
        simp [read_rate_limit, hlive]
      have hlt : ¬ limit ≤ e.count := by
        simp only [List.length_cons] at hcnt
        omega
      have hstep : contact_attempt (some e) t limit ttl =
          (some { e with count := e.count + 1 }, ContactOutcome.allowed) := by
        simp [contact_attempt, hread, if_neg hlt, increment_rate_limit, hlive]
      have hrest := ih { e with count := e.count + 1 }
        (fun u hu => hmem u (List.mem_cons_of_mem t hu))
        (by simp only [List.length_cons] at hcnt; dsimp only; omega)
      calc runContacts (some e) limit ttl (t :: rest)
          = runContacts (some { e with count := e.count + 1 }) limit ttl rest := by
            simp [runContacts, hstep]
        _ = some { e with count := e.count + 1 + rest.length } := hrest
        _ = some { e with count := e.count + (rest.length + 1) } := by
            have : e.count + 1 + rest.length = e.count + (rest.length + 1) := by omega
            rw [this]
        _ = some { e with count := e.count + (t :: rest).length } := by
            simp

/-- C5: the trailing fixed-window contact limiter.  Starting with no
counter, a first contact at `t0` and `limit - 1` further contacts at
times before the window's expiry `t0 + ttl` leave the counter at exactly
`limit` with expiry `t0 + ttl`; the `(limit+1)`th attempt inside the
window is rejected with a limit-exceeded outcome carrying the configured
limit and changes nothing; and once the window has expired, the next
increment starts a fresh window at count 1. -/
theorem contact_limit_window (limit ttl t0 tExtra tFresh : Nat)
    (ts : List Nat) (hts : ts.length + 1 = limit)
    (hin : ∀ t ∈ ts, t < t0 + ttl) (hex : tExtra < t0 + ttl)
    (hfresh : t0 + ttl ≤ tFresh) :
    runContacts none limit ttl (t0 :: ts) =
      some { count := limit, expires_at := t0 + ttl } ∧
    contact_attempt (some { count := limit, expires_at := t0 + ttl })
        tExtra limit ttl =
      (some { count := limit, expires_at := t0 + ttl },
        ContactOutcome.limitExceeded limit) ∧
    increment_rate_limit (some { count := limit, expires_at := t0 + ttl })
        tFresh ttl =
      ({ count := 1, expires_at := tFresh + ttl }, 1) := by
  refine ⟨?_, ?_, ?_⟩
  · have hfirst : contact_attempt none t0 limit ttl =
        (some { count := 1, expires_at := t0 + ttl }, ContactOutcome.allowed) := by
      have hpos : limit ≠ 0 := by omega
      simp [contact_attempt, read_rate_limit, liveEntry, increment_rate_limit,
        hpos]
    have hrest := runContacts_fill limit ttl ts
      { count := 1, expires_at := t0 + ttl } (fun t ht => hin t ht)
      (by dsimp only; omega)
    calc runContacts none limit ttl (t0 :: ts)
        = runContacts (some { count := 1, expires_at := t0 + ttl }) limit ttl ts := by
          simp [runContacts, hfirst]
      _ = some { count := 1 + ts.length, expires_at := t0 + ttl } := hrest
      _ = some { count := limit, expires_at := t0 + ttl } := by
          have : 1 + ts.length = limit := by omega
          rw [this]
  · have hlive : liveEntry
        (some { count := limit, expires_at := t0 + ttl }) tExtra =
        some { count := limit, expires_at := t0 + ttl } := by
      simp [liveEntry, if_pos hex]
    simp [contact_attempt, read_rate_limit, hlive]
  · have hdead : liveEntry
        (some { count := limit, expires_at := t0 + ttl }) tFresh = none := by
      have : ¬ tFresh < t0 + ttl := by omega
      simp [liveEntry, if_neg this]
    simp [increment_rate_limit, hdead]

/-- Witness for C5 at the configured default: limit
`CONTACT_LIMIT_PER_HOUR = 10`, window `3600` seconds, ten contacts at
seconds 0..9, an eleventh attempt at second 10, and a fresh increment at
second 3600. -/
theorem contact_limit_window_witness :
    runContacts none CONTACT_LIMIT_PER_HOUR 3600
        [0, 1, 2, 3, 4, 5, 6, 7, 8, 9] =
      some { count := CONTACT_LIMIT_PER_HOUR, expires_at := 0 + 3600 } ∧
    contact_attempt
        (some { count := CONTACT_LIMIT_PER_HOUR, expires_at := 0 + 3600 })
        10 CONTACT_LIMIT_PER_HOUR 3600 =
      (some { count := CONTACT_LIMIT_PER_HOUR, expires_at := 0 + 3600 },
        ContactOutcome.limitExceeded CONTACT_LIMIT_PER_HOUR) ∧
    increment_rate_limit
        (some { count := CONTACT_LIMIT_PER_HOUR, expires_at := 0 + 3600 })
        3600 3600 =
      ({ count := 1, expires_at := 3600 + 3600 }, 1) :=
  contact_limit_window CONTACT_LIMIT_PER_HOUR 3600 0 10 3600
    [1, 2, 3, 4, 5, 6, 7, 8, 9] (by decide)
    (by decide) (by decide) (by decide)

/-- Transaction semantics of an upsert attempt: a commit that fails
(the `check_rating_range` constraint violation) rolls back, leaving the
database unchanged; a successful commit installs the new state. -/
def applyUpsert (db : DB) (uid pid : Nat) (v : Int) (c : Option String)
    (now : Nat) : DB :=
  match create_or_update db uid pid v c now with
  | Except.ok r => r.1
  | Except.error _ => db

/-- The primary-key invariant of the `ratings` table: row ids are
pairwise distinct. -/
def uniqueRatingIds (db : DB) : Prop :=
  db.ratings.Pairwise (fun a b => a.id ≠ b.id)

lemma mem_le_foldr_max : ∀ (l : List Nat) (x : Nat), x ∈ l →
    x ≤ l.foldr Nat.max 0 := by
  intro l
  induction l with
  | nil => intro x hx; cases hx
  | cons a as ih =>
      intro x hx
      rcases List.mem_cons.mp hx with rfl | hx'
      · exact Nat.le_max_left x (as.foldr Nat.max 0)
      · exact (ih x hx').trans (Nat.le_max_right a (as.foldr Nat.max 0))

lemma nextRatingId_gt {db : DB} {r : Rating} (hr : r ∈ db.ratings) :
    r.id < nextRatingId db := by
  have h := mem_le_foldr_max (db.ratings.map (fun s => s.id)) r.id
    (List.mem_map_of_mem _ hr)
  unfold nextRatingId
  omega

lemma uniqueIds_elem_eq {l : List Rating}
    (h : l.Pairwise (fun a b => a.id ≠ b.id)) {a b : Rating}
    (ha : a ∈ l) (hb : b ∈ l) (hid : a.id = b.id) : a = b := by
  induction l with
  | nil => cases ha
  | cons x xs ih =>
      obtain ⟨hx, htail⟩ := List.pairwise_cons.mp h
      rcases List.mem_cons.mp ha with rfl | ha'
      · rcases List.mem_cons.mp hb with rfl | hb'
        · rfl
        · exact absurd hid (hx b hb')
      · rcases List.mem_cons.mp hb with rfl | hb'
        · exact absurd hid.symm (hx a ha')
        · exact ih htail ha' hb'

lemma filter_map_pres {α : Type} (f : α → α) (p : α → Bool) :
    ∀ l : List α, (∀ x ∈ l, p (f x) = p x) →
      (l.map f).filter p = (l.filter p).map f := by
  intro l
  induction l with
  | nil => intro _; rfl
  | cons a as ih =>
      intro h
      have ha := h a (List.mem_cons_self a as)
      have htail := ih (fun x hx => h x (List.mem_cons_of_mem a hx))
      by_cases hp : p a = true
      · simp [List.filter_cons, ha, hp, htail]
      · have hp' : p a = false := Bool.eq_false_iff.mpr hp
        simp [List.filter_cons, ha, hp', htail]

lemma find?_map_pres {α : Type} (f : α → α) (p : α → Bool) :
    ∀ l : List α, (∀ x ∈ l, p (f x) = p x) →
      (l.map f).find? p = (l.find? p).map f := by
  intro l
  induction l with
  | nil => intro _; rfl
  | cons a as ih =>
      intro h
      have ha := h a (List.mem_cons_self a as)
      have htail := ih (fun x hx => h x (List.mem_cons_of_mem a hx))
      by_cases hp : p a = true
      · rw [List.map_cons, List.find?_cons_of_pos _ (ha.trans hp),
          List.find?_cons_of_pos _ hp]
        rfl
      · rw [List.map_cons, List.find?_cons_of_neg _ (by rw [ha]; exact hp),
          List.find?_cons_of_neg _ hp, htail]

lemma find?_append_none {α : Type} (p : α → Bool) :
    ∀ l₁ l₂ : List α, l₁.find? p = none →
      (l₁ ++ l₂).find? p = l₂.find? p := by
  intro l₁
  induction l₁ with
  | nil => intro l₂ _; rfl
  | cons a as ih =>
      intro l₂ h
      have hall := List.find?_eq_none.mp h
      have hpa : ¬ p a = true := hall a (List.mem_cons_self a as)
      have htail : as.find? p = none :=
        List.find?_eq_none.mpr (fun x hx => hall x (List.mem_cons_of_mem a hx))
      rw [List.cons_append, List.find?_cons_of_neg _ hpa, ih l₂ htail]

lemma singleton_of_mem_len_le {α : Type} {l : List α} {x : α}
    (hx : x ∈ l) (h : l.length ≤ 1) : l = [x] := by
  cases l with
  | nil => cases hx
  | cons a as =>
      cases as with
      | nil =>
          rcases List.mem_singleton.mp hx with rfl
          rfl
      | cons b bs => simp at h

lemma create_or_update_ok_range {db : DB} {uid pid : Nat} {v : Int}
    {c : Option String} {now : Nat} {db1 : DB} {r1 : Rating}
    (h : create_or_update db uid pid v c now = Except.ok (db1, r1)) :
    ratingInRange v = true := by
  by_contra hneg
  rw [create_or_update, if_neg hneg] at h
  exact Except.noConfusion h

lemma create_or_update_insert {db : DB} {uid pid : Nat} {v : Int}
    {c : Option String} {now : Nat} {db1 : DB} {r1 : Rating}
    (hf : get_user_rating db uid pid = none)
    (h : create_or_update db uid pid v c now = Except.ok (db1, r1)) :
    r1 = { id := nextRatingId db, user_id := uid, provider_id := pid,
           rating := v, comment := c, is_moderated := true,
           created_at := now, updated_at := now } ∧
    db1 = { db with ratings := db.ratings ++ [r1] } := by
  have hr := create_or_update_ok_range h
  rw [create_or_update, if_pos hr, hf] at h
  simp only [Except.ok.injEq, Prod.mk.injEq] at h
  obtain ⟨hdb, hr1⟩ := h
  subst hr1
  subst hdb
  exact ⟨rfl, rfl⟩

lemma create_or_update_update {db : DB} {uid pid : Nat} {v : Int}
    {c : Option String} {now : Nat} {db1 : DB} {r1 r0 : Rating}
    (hf : get_user_rating db uid pid = some r0)
    (h : create_or_update db uid pid v c now = Except.ok (db1, r1)) :
    r1 = { r0 with rating := v, comment := c, updated_at := now } ∧
    db1 = { db with ratings :=
      db.ratings.map (fun s => if s.id == r0.id then r1 else s) } := by
  have hr := create_or_update_ok_range h
  rw [create_or_update, if_pos hr, hf] at h
  simp only [Except.ok.injEq, Prod.mk.injEq] at h
  obtain ⟨hdb, hr1⟩ := h
  subst hr1
  subst hdb
  exact ⟨rfl, rfl⟩

/-- C6: the upsert path enforces the `check_rating_range` constraint.
A value outside `[1,5]` makes the transaction fail with the constraint
violation, performing no write (rollback leaves the database unchanged);
every in-range value commits successfully. -/
theorem upsert_range_check (db : DB) (uid pid : Nat) (v : Int)
    (c : Option String) (now : Nat) :
    (¬ (1 ≤ v ∧ v ≤ 5) →
      create_or_update db uid pid v c now =
        Except.error "check_rating_range" ∧
      applyUpsert db uid pid v c now = db) ∧
    ((1 ≤ v ∧ v ≤ 5) →
      ∃ db1 r1, create_or_update db uid pid v c now =
        Except.ok (db1, r1)) := by
  constructor
  · intro hv
    have hrange : ¬ ratingInRange v = true := by
      simp only [ratingInRange, Bool.and_eq_true, decide_eq_true_eq]
      exact fun hc => hv hc
    have herr : create_or_update db uid pid v c now =
        Except.error "check_rating_range" := by
      rw [create_or_update, if_neg hrange]
    exact ⟨herr, by rw [applyUpsert, herr]⟩
  · intro hv
    have hrange : ratingInRange v = true := by
      simp only [ratingInRange, Bool.and_eq_true, decide_eq_true_eq]
      exact hv
    rw [create_or_update, if_pos hrange]
    cases hf : get_user_rating db uid pid with
    | some r => exact ⟨_, _, rfl⟩
    | none => exact ⟨_, _, rfl⟩

/-- A sample provider row used by the concrete witnesses. -/
def sampleProvider : Provider :=
  { id := 1, location_id := 1, category_id := 1, is_active := true,
    is_approved := true, average_rating := 0, rating_count := 0,
    view_count := 0, contact_count := 0 }

/-- A sample database with one provider and no ratings. -/
def sampleDB : DB :=
  { providers := [sampleProvider], ratings := [], contacts := [] }

/-- Witness for C6 at concrete inputs: value 7 is rejected by the
constraint with no change to the database, value 4 succeeds. -/
theorem upsert_range_check_witness :
    (create_or_update sampleDB 7 1 7 none 100 =
        Except.error "check_rating_range" ∧
      applyUpsert sampleDB 7 1 7 none 100 = sampleDB) ∧
    (∃ db1 r1, create_or_update sampleDB 7 1 4 none 100 =
        Except.ok (db1, r1)) :=
  ⟨(upsert_range_check sampleDB 7 1 7 none 100).1 (by decide),
    (upsert_range_check sampleDB 7 1 4 none 100).2 (by decide)⟩

lemma upd_pointwise {db : DB} {r0 r1 : Rating}
    (hids : uniqueRatingIds db) (hr0 : r0 ∈ db.ratings)
    (p : Rating → Bool) (hp : p r1 = p r0) :
    ∀ s ∈ db.ratings, p (if s.id == r0.id then r1 else s) = p s := by
  intro s hs
  by_cases hbeq : (s.id == r0.id) = true
  · have hse : s = r0 := uniqueIds_elem_eq hids hs hr0 (beq_iff_eq.mp hbeq)
    rw [if_pos hbeq, hse, hp]
  · rw [if_neg hbeq]

lemma upsert_post {db : DB} {uid pid : Nat} {v : Int} {c : Option String}
    {now : Nat} {db1 : DB} {r1 : Rating}
    (hids : uniqueRatingIds db)
    (hpair : (pairRecords db uid pid).length ≤ 1)
    (h : create_or_update db uid pid v c now = Except.ok (db1, r1)) :
    get_user_rating db1 uid pid = some r1 ∧
    pairRecords db1 uid pid = [r1] ∧
    uniqueRatingIds db1 ∧
    r1.rating = v ∧ r1.comment = c ∧ r1.updated_at = now := by
  cases hf : get_user_rating db uid pid with
  | none =>
      obtain ⟨hr1, hdb1⟩ := create_or_update_insert hf h
      have hp1 : ratingPair uid pid r1 = true := by
        rw [hr1]
        simp [ratingPair]
      refine ⟨?_, ?_, ?_, by rw [hr1], by rw [hr1], by rw [hr1]⟩
      · rw [hdb1]
        show (db.ratings ++ [r1]).find? (ratingPair uid pid) = some r1
        rw [find?_append_none _ _ _ hf]
        exact List.find?_cons_of_pos _ hp1
      · rw [hdb1]
        show (db.ratings ++ [r1]).filter (ratingPair uid pid) = [r1]
        rw [List.filter_append,
          List.filter_eq_nil_iff.mpr (List.find?_eq_none.mp hf)]
        simp [List.filter_cons, hp1]
      · rw [hdb1]
        show (db.ratings ++ [r1]).Pairwise (fun a b => a.id ≠ b.id)
        rw [List.pairwise_append]
        refine ⟨hids, by simp, ?_⟩
        intro a ha b hb
        rcases List.mem_singleton.mp hb with rfl
        have hlt := nextRatingId_gt ha
        rw [hr1]
        dsimp only
        omega
  | some r0 =>
      obtain ⟨hr1, hdb1⟩ := create_or_update_update hf h
      have hr0mem : r0 ∈ db.ratings := List.mem_of_find?_eq_some hf
      have hp0 : ratingPair uid pid r0 = true := List.find?_some hf
      have hppres : ratingPair uid pid r1 = ratingPair uid pid r0 := by
        rw [hr1]
        rfl
      have hpw := upd_pointwise hids hr0mem (ratingPair uid pid) hppres
      have hsingle : pairRecords db uid pid = [r0] :=
        singleton_of_mem_len_le (List.mem_filter.mpr ⟨hr0mem, hp0⟩) hpair
      refine ⟨?_, ?_, ?_, by rw [hr1], by rw [hr1], by rw [hr1]⟩
      · rw [hdb1]
        show (db.ratings.map
            fun s => if s.id == r0.id then r1 else s).find?
              (ratingPair uid pid) = some r1
        rw [find?_map_pres _ _ _ hpw]
        show (get_user_rating db uid pid).map _ = some r1
        rw [hf]
        show some (if r0.id == r0.id then r1 else r0) = some r1
        rw [if_pos (beq_self_eq_true r0.id)]
      · rw [hdb1]
        show (db.ratings.map
            fun s => if s.id == r0.id then r1 else s).filter
              (ratingPair uid pid) = [r1]
        rw [filter_map_pres _ _ _ hpw]
        show (pairRecords db uid pid).map _ = [r1]
        rw [hsingle]
        show [if r0.id == r0.id then r1 else r0] = [r1]
        rw [if_pos (beq_self_eq_true r0.id)]
      · rw [hdb1]
        show (db.ratings.map
            fun s => if s.id == r0.id then r1 else s).Pairwise
              (fun a b => a.id ≠ b.id)
        rw [List.pairwise_map]
        have hfid : ∀ x : Rating,
            (if x.id == r0.id then r1 else x).id = x.id := by
          intro x
          by_cases hbeq : (x.id == r0.id) = true
          · rw [if_pos hbeq, hr1]
            dsimp only
            exact (beq_iff_eq.mp hbeq).symm
          · rw [if_neg hbeq]
        refine hids.imp ?_
        intro a b hab
        rw [hfid a, hfid b]
        exact hab

/-- C4: a second upsert for the same `(user, provider)` pair never
creates a second row.  Starting from a database satisfying the
primary-key and unique-index invariants of the `ratings` table, after
two consecutive `create_or_update` calls for the pair exactly one row
exists for it, and the second call preserved the row's identity (`id`)
and `created_at`, changing only `rating`, `comment` and `updated_at`. -/
theorem rating_upsert_idempotent_identity
    (db : DB) (uid pid : Nat) (v1 v2 : Int) (c1 c2 : Option String)
    (t1 t2 : Nat) (db1 db2 : DB) (r1 r2 : Rating)
    (hids : uniqueRatingIds db)
    (hpair : (pairRecords db uid pid).length ≤ 1)
    (h1 : create_or_update db uid pid v1 c1 t1 = Except.ok (db1, r1))
    (h2 : create_or_update db1 uid pid v2 c2 t2 = Except.ok (db2, r2)) :
    pairRecords db2 uid pid = [r2] ∧
    r2.id = r1.id ∧ r2.created_at = r1.created_at ∧
    r2.rating = v2 ∧ r2.comment = c2 ∧ r2.updated_at = t2 := by
  obtain ⟨hfind1, hpairs1, huniq1, _, _, _⟩ := upsert_post hids hpair h1
  obtain ⟨_, hpairs2, _, hv2, hc2, ht2⟩ :=
    upsert_post huniq1 (by rw [hpairs1]; exact le_refl 1) h2
  obtain ⟨hr2, _⟩ := create_or_update_update hfind1 h2
  exact ⟨hpairs2, by rw [hr2], by rw [hr2], hv2, hc2, ht2⟩

/-- A sample rating row inserted by the witnesses. -/
def sampleRating1 : Rating :=
  { id := 1, user_id := 7, provider_id := 1, rating := 4, comment := none,
    is_moderated := true, created_at := 100, updated_at := 100 }

/-- The sample rating after a second upsert with value 2 at time 200. -/
def sampleRating2 : Rating :=
  { sampleRating1 with rating := 2, updated_at := 200 }

/-- The sample database after the first upsert. -/
def sampleDB1 : DB := { sampleDB with ratings := [sampleRating1] }

/-- The sample database after the second upsert. -/
def sampleDB1b : DB := { sampleDB with ratings := [sampleRating2] }

/-- Witness for C4 at a concrete input: user 7 rates provider 1 with 4,
then re-rates with 2; one row remains, same id and `created_at`. -/
theorem rating_upsert_idempotent_identity_witness :
    pairRecords sampleDB1b 7 1 = [sampleRating2] ∧
    sampleRating2.id = sampleRating1.id ∧
    sampleRating2.created_at = sampleRating1.created_at ∧
    sampleRating2.rating = 2 ∧ sampleRating2.comment = none ∧
    sampleRating2.updated_at = 200 :=
  rating_upsert_idempotent_identity sampleDB 7 1 4 2 none none 100 200
    sampleDB1 sampleDB1b sampleRating1 sampleRating2
    List.Pairwise.nil (by decide) rfl rfl

/-- C10: the calendar-day rating limit is immune to re-rating.
`count_user_ratings_today` counts exactly the user's rows with
`created_at` on the current UTC day (given that no stored row is dated
beyond the day, which insertion at `utcnow` guarantees), and an upsert
that hits an existing `(user, provider)` row preserves `created_at` and
changes no other row, so the day's count after the re-rate equals the
count before — re-rating consumes none of the daily limit. -/
theorem rerate_preserves_daily_count
    (db : DB) (uid pid : Nat) (v : Int) (c : Option String)
    (now todayStart : Nat) (db1 : DB) (r1 r0 : Rating)
    (hids : uniqueRatingIds db)
    (hf : get_user_rating db uid pid = some r0)
    (h : create_or_update db uid pid v c now = Except.ok (db1, r1))
    (hbound : ∀ r ∈ db.ratings, r.created_at < todayStart + 86400) :
    r1.created_at = r0.created_at ∧
    count_user_ratings_today db1 uid todayStart =
      count_user_ratings_today db uid todayStart ∧
    count_user_ratings_today db uid todayStart =
      (db.ratings.filter (fun r => r.user_id == uid &&
        (decide (todayStart ≤ r.created_at) &&
          decide (r.created_at < todayStart + 86400)))).length := by
  obtain ⟨hr1, hdb1⟩ := create_or_update_update hf h
  have hr0mem : r0 ∈ db.ratings := List.mem_of_find?_eq_some hf
  refine ⟨by rw [hr1], ?_, ?_⟩
  · have hppres : (fun r : Rating => r.user_id == uid &&
        decide (todayStart ≤ r.created_at)) r1 =
        (fun r : Rating => r.user_id == uid &&
          decide (todayStart ≤ r.created_at)) r0 := by
      rw [hr1]
    have hpw := upd_pointwise hids hr0mem
      (fun r => r.user_id == uid && decide (todayStart ≤ r.created_at))
      hppres
    rw [hdb1]
    show ((db.ratings.map
        fun s => if s.id == r0.id then r1 else s).filter _).length = _
    rw [filter_map_pres _ _ _ hpw, List.length_map]
    rfl
  · show (db.ratings.filter _).length = _
    congr 1
    apply List.filter_congr
    intro x hx
    have hb : decide (x.created_at < todayStart + 86400) = true :=
      decide_eq_true (hbound x hx)
    rw [hb, Bool.and_true]

/-- A rating row created on an earlier day (`created_at = 10`,
before the sample day start 100). -/
def oldRating : Rating :=
  { id := 1, user_id := 7, provider_id := 1, rating := 5, comment := none,
    is_moderated := true, created_at := 10, updated_at := 10 }

/-- Sample database holding the earlier-day rating. -/
def dbOld : DB :=
  { providers := [sampleProvider], ratings := [oldRating], contacts := [] }

/-- The earlier-day rating after the re-rate with value 3 at time 200. -/
def newRating : Rating := { oldRating with rating := 3, updated_at := 200 }

/-- Sample database after the re-rate. -/
def dbNew : DB := { dbOld with ratings := [newRating] }

/-- Witness for C10 at a concrete input: re-rating the provider first
rated at time 10 leaves the day count (day start 100) unchanged. -/
theorem rerate_preserves_daily_count_witness :
    newRating.created_at = oldRating.created_at ∧
    count_user_ratings_today dbNew 7 100 =
      count_user_ratings_today dbOld 7 100 ∧
    count_user_ratings_today dbOld 7 100 =
      (dbOld.ratings.filter (fun r => r.user_id == 7 &&
        (decide (100 ≤ r.created_at) &&
          decide (r.created_at < 100 + 86400)))).length :=
  rerate_preserves_daily_count dbOld 7 1 3 none 200 100 dbNew
    newRating oldRating (List.pairwise_singleton _ _)
    rfl rfl (by decide)

/-- C1: after every successful rating upsert the handler recomputes the
provider aggregate, and the recomputation is correct: in the resulting
database, the provider row for `pid` carries `rating_count` equal to the
number of its moderated rating rows and `average_rating` equal to their
exact arithmetic mean, with the empty set written as average `0` and
count `0` — never null and never a division by zero. -/
theorem rating_aggregate_recompute
    (db : DB) (uid pid : Nat) (v : Int) (c : Option String) (now : Nat)
    (db2 : DB) (h : save_rating db uid pid v c now = Except.ok db2) :
    ∀ p ∈ db2.providers, p.id = pid →
      p.rating_count = (moderatedRatings db2 pid).length ∧
      p.average_rating = ratAverage (moderatedRatings db2 pid) ∧
      (moderatedRatings db2 pid = [] →
        p.average_rating = 0 ∧ p.rating_count = 0) := by
  cases hcu : create_or_update db uid pid v c now with
  | error e =>
      simp only [save_rating, hcu, Except.map] at h
      exact Except.noConfusion h
  | ok pr =>
      simp only [save_rating, hcu, Except.map, Except.ok.injEq] at h
      subst h
      intro p hp hid
      simp only [update_rating] at hp
      obtain ⟨q, hq, hfq⟩ := List.mem_map.mp hp
      by_cases hbeq : (q.id == pid) = true
      · rw [if_pos hbeq] at hfq
        subst hfq
        refine ⟨rfl, rfl, ?_⟩
        intro hnil
        have hnil2 : moderatedRatings pr.1 pid = [] := hnil
        constructor
        · show ratAverage (moderatedRatings pr.1 pid) = 0
          rw [hnil2]
          simp [ratAverage]
        · show (moderatedRatings pr.1 pid).length = 0
          rw [hnil2]
          rfl
      · rw [if_neg hbeq] at hfq
        subst hfq
        have : (q.id == pid) = true := by
          rw [hid]
          exact beq_self_eq_true pid
        exact absurd this hbeq

/-- The sample database after `save_rating sampleDB 7 1 4 none 100`:
the rating row and the recomputed aggregate (average 4, count 1). -/
def sampleDB2 : DB :=
  { providers := [{ sampleProvider with average_rating := 4, rating_count := 1 }],
    ratings := [sampleRating1], contacts := [] }

/-- Witness for C1 at a concrete input: the single moderated rating of
value 4 yields average 4 and count 1 on the provider row. -/
theorem rating_aggregate_recompute_witness :
    ({ sampleProvider with average_rating := 4, rating_count := 1 }
        : Provider).rating_count = (moderatedRatings sampleDB2 1).length ∧
    ({ sampleProvider with average_rating := 4, rating_count := 1 }
        : Provider).average_rating = ratAverage (moderatedRatings sampleDB2 1) ∧
    (moderatedRatings sampleDB2 1 = [] →
      ({ sampleProvider with average_rating := 4, rating_count := 1 }
          : Provider).average_rating = 0 ∧
      ({ sampleProvider with average_rating := 4, rating_count := 1 }
          : Provider).rating_count = 0) :=
  rating_aggregate_recompute sampleDB 7 1 4 none 100 sampleDB2
    (by
      show Except.ok (update_rating sampleDB1 1) = Except.ok sampleDB2
      congr 1
      simp [update_rating, sampleDB1, sampleDB, sampleDB2, sampleProvider,
        moderatedRatings, sampleRating1]
      norm_num [ratAverage])
    { sampleProvider with average_rating := 4, rating_count := 1 }
    (List.mem_singleton.mpr rfl) rfl

/-- The ordering the specification prescribes for the most-contacted
ranking: ledger count descending, then provider identifier ascending. -/
def contactedSpecOrder (a b : Provider × Nat) : Prop :=
  b.2 < a.2 ∨ (a.2 = b.2 ∧ a.1.id ≤ b.1.id)

instance : DecidableRel contactedSpecOrder := fun a b => by
  unfold contactedSpecOrder; infer_instance

/-- C8 (amended): the provider snapshot built for `StartBrowse` is the
filtered provider set ordered by average rating descending then contact
count descending — the two keys the query's ORDER BY actually issues.
No identifier tie-break is applied, so providers equal on both keys
appear in an unspecified relative order. -/
theorem get_filtered_code_order (db : DB) (loc cat : Option Nat) :
    (get_filtered db loc cat).Perm
      (db.providers.filter (providerMatches loc cat)) ∧
    (get_filtered db loc cat).Sorted codeOrder :=
  ⟨List.perm_insertionSort codeOrder _, List.sorted_insertionSort codeOrder _⟩

/-- Two providers tied on both sort keys, distinguished only by id. -/
def tiedProviderA : Provider :=
  { id := 1, location_id := 1, category_id := 1, is_active := true,
    is_approved := true, average_rating := 0, rating_count := 0,
    view_count := 0, contact_count := 5 }

/-- The tie partner with the larger id. -/
def tiedProviderB : Provider := { tiedProviderA with id := 2 }

/-- A database whose provider table stores the tied rows larger-id
first. -/
def dbTies : DB :=
  { providers := [tiedProviderB, tiedProviderA], ratings := [],
    contacts := [] }

/-- C8 counterexample: with two providers tied on average rating and
contact count, the snapshot comes out `[2, 1]` — its adjacent pair
violates the identifier-ascending tie-break the claim asserts, so the
claimed deterministic ordering does not hold. -/
theorem get_filtered_no_id_tiebreak_cex :
    get_filtered dbTies (some 1) (some 1) =
      [tiedProviderB, tiedProviderA] ∧
    snapshotIds dbTies (some 1) (some 1) = [2, 1] ∧
    ¬ specOrder tiedProviderB tiedProviderA := by
  refine ⟨by decide, by decide, by decide⟩

/-- C9 (amended): `get_most_contacted_providers` ranks by the ledger
count descending — each returned count is recomputed from the
`user_provider_contacts` rows, independent of the provider's stored
`contact_count` field — but applies no identifier tie-break, so
providers with equal ledger counts appear in an unspecified relative
order. -/
theorem most_contacted_ledger_order (db : DB) (limit : Nat) :
    (get_most_contacted_providers db limit).Sorted contactedOrder ∧
    (get_most_contacted_providers db limit).map (fun x => x.2) =
      (get_most_contacted_providers db limit).map
        (fun x => ledgerCount db x.1.id) := by
  constructor
  · exact (List.sorted_insertionSort contactedOrder _).sublist
      (List.take_sublist _ _)
  · apply List.map_congr_left
    intro x hx
    have hx1 : x ∈ List.insertionSort contactedOrder
        ((db.providers.filter (fun p => 0 < ledgerCount db p.id)).map
          (fun p => (p, ledgerCount db p.id))) :=
      List.mem_of_mem_take hx
    have hx2 : x ∈ (db.providers.filter
        (fun p => 0 < ledgerCount db p.id)).map
          (fun p => (p, ledgerCount db p.id)) :=
      (List.perm_insertionSort contactedOrder _).mem_iff.mp hx1
    obtain ⟨p, hp, rfl⟩ := List.mem_map.mp hx2
    rfl

/-- A provider whose stored `contact_count` field (999) disagrees with
its ledger count (1). -/
def contactedProviderA : Provider :=
  { id := 1, location_id := 1, category_id := 1, is_active := true,
    is_approved := true, average_rating := 0, rating_count := 0,
    view_count := 0, contact_count := 999 }

/-- The tie partner with the larger id. -/
def contactedProviderB : Provider := { contactedProviderA with id := 2 }

/-- A database where both providers have exactly one ledger contact,
stored larger-id first. -/
def dbContacts : DB :=
  { providers := [contactedProviderB, contactedProviderA], ratings := [],
    contacts :=
      [{ id := 1, user_id := 7, provider_id := 2, contacted_at := 0 },
       { id := 2, user_id := 8, provider_id := 1, contacted_at := 0 }] }

/-- C9 counterexample: with two providers tied at one ledger contact
each, the ranking comes out `[(id 2, 1), (id 1, 1)]` — the counts come
from the ledger (not the stored 999), but the adjacent pair violates
the identifier-ascending tie-break the claim asserts. -/
theorem most_contacted_no_id_tiebreak_cex :
    get_most_contacted_providers dbContacts 10 =
      [(contactedProviderB, 1), (contactedProviderA, 1)] ∧
    ¬ contactedSpecOrder (contactedProviderB, 1) (contactedProviderA, 1) := by
  refine ⟨by decide, by decide⟩

end ServiceBot
